import Mathlib

/-!
Verification of the `ex7` league system: a shallow embedding of the
league-manager scheduler, standings state machine, the referee game logic
and the MCP transport client's retry loop, with theorems checking the
natural-language specification against the code.
-/

namespace League

/-- Embeds the `result` dict a referee reports for a match: the league
manager handlers only ever read its `winner` key, so only that field is
modelled. -/
structure ResultPayload where
  winner : Option String
  deriving Repr, DecidableEq

/-- Embeds the dataclass `Match` of `agents/league_manager/state.py`. -/
structure MatchRec where
  match_id : String
  round_id : Nat
  player_a_id : String
  player_b_id : String
  status : String := "PENDING"
  winner : Option String := none
  result : Option ResultPayload := none
  deriving Repr, DecidableEq

/-- Embeds `itertools.combinations(player_ids, 2)` in iteration order:
for each element, it is paired with every later element. -/
def combinations2 {α : Type} : List α → List (α × α)
  | [] => []
  | x :: xs => (xs.map (fun y => (x, y))) ++ combinations2 xs

/-- Embeds the body of the loop of `create_round_robin_schedule`
(`agents/league_manager/scheduler.py`): the match built for pair `p` at
1-based position `num`, with `round_id = (match_num - 1) // 2 + 1`. -/
def mkScheduledMatch (num : Nat) (p : String × String) : MatchRec :=
  let round_id := (num - 1) / 2 + 1
  { match_id := ("R") ++ toString round_id ++ ("M") ++ toString num
    round_id := round_id
    player_a_id := p.1
    player_b_id := p.2 }

/-- Embeds the numbering loop of `create_round_robin_schedule`: builds the
match list starting from match number `num`. -/
def scheduleAux : Nat → List (String × String) → List MatchRec
  | _, [] => []
  | num, p :: rest => mkScheduledMatch num p :: scheduleAux (num + 1) rest

/-- Embeds `create_round_robin_schedule` of
`agents/league_manager/scheduler.py`. -/
def create_round_robin_schedule (player_ids : List String) : List MatchRec :=
  scheduleAux 1 (combinations2 player_ids)

theorem combinations2_length {α : Type} (l : List α) :
    (combinations2 l).length = l.length.choose 2 := by
  induction l with
  | nil => rfl
  | cons x xs ih =>
    simp only [combinations2, List.length_append, List.length_map,
      List.length_cons, Nat.choose_succ_succ, Nat.choose_one_right, ih]

theorem mem_combinations2 {α : Type} {l : List α} {p : α × α}
    (h : p ∈ combinations2 l) : p.1 ∈ l ∧ p.2 ∈ l := by
  induction l with
  | nil => simp [combinations2] at h
  | cons x xs ih =>
    simp only [combinations2, List.mem_append, List.mem_map] at h
    rcases h with ⟨y, hy, rfl⟩ | h
    · exact ⟨List.mem_cons_self x xs, List.mem_cons_of_mem x hy⟩
    · exact ⟨List.mem_cons_of_mem x (ih h).1, List.mem_cons_of_mem x (ih h).2⟩

theorem scheduleAux_length (num : Nat) (ps : List (String × String)) :
    (scheduleAux num ps).length = ps.length := by
  induction ps generalizing num with
  | nil => rfl
  | cons p rest ih => simp [scheduleAux, ih]

theorem scheduleAux_map_pair (num : Nat) (ps : List (String × String)) :
    (scheduleAux num ps).map (fun m => (m.player_a_id, m.player_b_id)) = ps := by
  induction ps generalizing num with
  | nil => rfl
  | cons p rest ih => simp [scheduleAux, mkScheduledMatch, ih]

theorem scheduleAux_round_id (num : Nat) (ps : List (String × String))
    (i : Nat) (h : i < (scheduleAux num ps).length) :
    ((scheduleAux num ps).get ⟨i, h⟩).round_id = (num + i - 1) / 2 + 1 := by
  induction ps generalizing num i with
  | nil => simp [scheduleAux] at h
  | cons p rest ih =>
    cases i with
    | zero => simp [scheduleAux, mkScheduledMatch]
    | succ j =>
      have h' : j < (scheduleAux (num + 1) rest).length := by
        simp only [scheduleAux, List.length_cons] at h
        omega
      have step : ((scheduleAux num (p :: rest)).get ⟨j + 1, h⟩).round_id
          = ((scheduleAux (num + 1) rest).get ⟨j, h'⟩).round_id := rfl
      rw [step, ih (num + 1) j h']
      congr 1
      omega

theorem countP_eq_one_of_nodup {α : Type} [DecidableEq α] {l : List α}
    (hnd : l.Nodup) {b : α} (hb : b ∈ l) :
    l.countP (fun y => decide (y = b)) = 1 := by
  induction l with
  | nil => simp at hb
  | cons x xs ih =>
    have hx : x ∉ xs := (List.nodup_cons.mp hnd).1
    have hxs : xs.Nodup := (List.nodup_cons.mp hnd).2
    rw [List.countP_cons]
    rcases List.mem_cons.mp hb with rfl | hbxs
    · have hz : xs.countP (fun y => decide (y = b)) = 0 := by
        apply List.countP_eq_zero.mpr
        intro y hy hpy
        exact hx ((of_decide_eq_true hpy) ▸ hy)
      simp [hz]
    · have hxb : ¬(x = b) := fun h => hx (h ▸ hbxs)
      simp [ih hxs hbxs, hxb]

theorem countP_combinations2 {α : Type} [DecidableEq α] {l : List α}
    (hnd : l.Nodup) {a b : α} (ha : a ∈ l) (hb : b ∈ l) (hab : a ≠ b) :
    (combinations2 l).countP
      (fun p => decide (p = (a, b)) || decide (p = (b, a))) = 1 := by
  induction l with
  | nil => simp at ha
  | cons x xs ih =>
    have hx : x ∉ xs := (List.nodup_cons.mp hnd).1
    have hxs : xs.Nodup := (List.nodup_cons.mp hnd).2
    rw [combinations2, List.countP_append, List.countP_map]
    by_cases hxa : x = a
    · subst hxa
      have hbxs : b ∈ xs := by
        rcases List.mem_cons.mp hb with h | h
        · exact absurd h.symm hab
        · exact h
      have hpred : ((fun p => decide (p = (x, b)) || decide (p = (b, x)))
            ∘ fun y => (x, y)) = fun y => decide (y = b) := by
        funext y
        by_cases hyb : y = b <;>
          simp [Function.comp, Prod.mk.injEq, hyb, hab]
      have hrest : (combinations2 xs).countP
          (fun p => decide (p = (x, b)) || decide (p = (b, x))) = 0 := by
        apply List.countP_eq_zero.mpr
        intro p hp hcontra
        have hmem := mem_combinations2 hp
        simp only [Bool.or_eq_true, decide_eq_true_eq] at hcontra
        rcases hcontra with rfl | rfl
        · exact hx hmem.1
        · exact hx hmem.2
      rw [hpred, hrest, countP_eq_one_of_nodup hxs hbxs]
    · by_cases hxb : x = b
      · subst hxb
        have haxs : a ∈ xs := by
          rcases List.mem_cons.mp ha with h | h
          · exact absurd h hab
          · exact h
        have hpred : ((fun p => decide (p = (a, x)) || decide (p = (x, a)))
              ∘ fun y => (x, y)) = fun y => decide (y = a) := by
          funext y
          by_cases hya : y = a <;>
            simp [Function.comp, Prod.mk.injEq, hya, hxa]
        have hrest : (combinations2 xs).countP
            (fun p => decide (p = (a, x)) || decide (p = (x, a))) = 0 := by
          apply List.countP_eq_zero.mpr
          intro p hp hcontra
          have hmem := mem_combinations2 hp
          simp only [Bool.or_eq_true, decide_eq_true_eq] at hcontra
          rcases hcontra with rfl | rfl
          · exact hx hmem.2
          · exact hx hmem.1
        rw [hpred, hrest, countP_eq_one_of_nodup hxs haxs]
      · have haxs : a ∈ xs := by
          rcases List.mem_cons.mp ha with h | h
          · exact absurd h.symm hxa
          · exact h
        have hbxs : b ∈ xs := by
          rcases List.mem_cons.mp hb with h | h
          · exact absurd h.symm hxb
          · exact h
        have hpred : ((fun p => decide (p = (a, b)) || decide (p = (b, a)))
              ∘ fun y => (x, y)) = fun _ => false := by
          funext y
          simp [Function.comp, Prod.mk.injEq, hxa, hxb]
        rw [hpred, List.countP_false]
        simpa using ih hxs haxs hbxs

/-- C1 counterexample: the claim says the schedule groups matches into
rounds of `floor(n/2)` matches each for every `n ≥ 2`.  For the three
distinct players P1, P2, P3 the code puts 2 matches into round 1, while
`floor(3/2) = 1`, so the grouping clause of the claim is false. -/
theorem c1_rounds_not_floor_half_counterexample :
    ((create_round_robin_schedule ["P1", "P2", "P3"]).filter
        (fun m => m.round_id == 1)).length
      ≠ (["P1", "P2", "P3"] : List String).length / 2 := by
  decide

/-- C1 (amended): for every list of `n ≥ 2` distinct player ids,
`create_round_robin_schedule` returns exactly `n*(n-1)/2` matches, every
unordered pair of distinct players appears exactly once, every match has
`round_id ≥ 1`, and the matches are grouped into rounds of 2 consecutive
matches each: the 0-based `i`-th match has `round_id = i / 2 + 1`
(not rounds of `floor(n/2)` matches). -/
theorem c1_create_round_robin_schedule_correct (ids : List String)
    (hnd : ids.Nodup) (h2 : 2 ≤ ids.length) :
    (create_round_robin_schedule ids).length
        = ids.length * (ids.length - 1) / 2
    ∧ (∀ a b, a ∈ ids → b ∈ ids → a ≠ b →
        (create_round_robin_schedule ids).countP
          (fun m => decide ((m.player_a_id, m.player_b_id) = (a, b))
            || decide ((m.player_a_id, m.player_b_id) = (b, a))) = 1)
    ∧ (∀ m ∈ create_round_robin_schedule ids, 1 ≤ m.round_id)
    ∧ (∀ i, ∀ h : i < (create_round_robin_schedule ids).length,
        ((create_round_robin_schedule ids).get ⟨i, h⟩).round_id = i / 2 + 1) := by
  refine ⟨?_, ?_, ?_, ?_⟩
  · rw [create_round_robin_schedule, scheduleAux_length, combinations2_length,
      Nat.choose_two_right]
  · intro a b ha hb hab
    have hmap := scheduleAux_map_pair 1 (combinations2 ids)
    calc (create_round_robin_schedule ids).countP
          (fun m => decide ((m.player_a_id, m.player_b_id) = (a, b))
            || decide ((m.player_a_id, m.player_b_id) = (b, a)))
        = ((create_round_robin_schedule ids).map
            (fun m => (m.player_a_id, m.player_b_id))).countP
            (fun p => decide (p = (a, b)) || decide (p = (b, a))) := by
          rw [List.countP_map]
          rfl
      _ = (combinations2 ids).countP
            (fun p => decide (p = (a, b)) || decide (p = (b, a))) := by
          rw [create_round_robin_schedule, hmap]
      _ = 1 := countP_combinations2 hnd ha hb hab
  · intro m hm
    rw [create_round_robin_schedule] at hm
    rcases List.mem_iff_get.mp hm with ⟨i, rfl⟩
    rw [scheduleAux_round_id]
    omega
  · intro i h
    have h' : i < (scheduleAux 1 (combinations2 ids)).length := h
    show ((scheduleAux 1 (combinations2 ids)).get ⟨i, h'⟩).round_id = i / 2 + 1
    rw [scheduleAux_round_id]
    congr 1
    omega

/-- C1 witness: the amended theorem applied to the four distinct players
P1..P4 gives the match count 4*3/2 = 6. -/
theorem c1_create_round_robin_schedule_correct_witness :
    (create_round_robin_schedule ["P1", "P2", "P3", "P4"]).length
      = (["P1", "P2", "P3", "P4"] : List String).length
        * ((["P1", "P2", "P3", "P4"] : List String).length - 1) / 2 :=
  (c1_create_round_robin_schedule_correct ["P1", "P2", "P3", "P4"]
    (by decide) (by decide)).1

/-- Embeds `RetryConfig` of `SHARED/league_sdk/http_client.py`.  Delays
are modelled as rationals; the Python float values 2.0 and 2.0 used by the
defaults are exactly representable. -/
structure RetryConfig where
  max_retries : Nat := 3
  base_delay : ℚ := 2
  backoff_multiplier : ℚ := 2
  retryable_codes : List String := ["E001", "E009"]

/-- Outcome of one `requests.post` attempt inside `MCPClient.call`: the
request either succeeds, raises `requests.Timeout`, raises
`requests.ConnectionError`, or `raise_for_status` raises an HTTP 4xx/5xx
`requests.HTTPError`. -/
inductive AttemptOutcome where
  | success
  | timeout
  | connectionError
  | httpError
  deriving DecidableEq, Repr

/-- Structured `data` payload of the error dict `MCPClient.call` builds. -/
structure ErrorData where
  error_code : String
  error_description : String
  deriving DecidableEq, Repr

/-- Return value of `MCPClient.call`: the parsed JSON body on success, or
the JSON-RPC error dict the client builds itself (`code` is the JSON-RPC
error code; `data` is the machine-readable payload, present only on the
retries-exhausted error; the human-readable `message` is not modelled). -/
inductive CallReturn where
  | success
  | errorReturn (code : Int) (data : Option ErrorData)
  deriving DecidableEq, Repr

/-- Observable behaviour of one `MCPClient.call` invocation: how many
`requests.post` attempts were made, the list of delays slept between
attempts, and the returned value. -/
structure CallTrace where
  attempts : Nat
  sleeps : List ℚ
  ret : CallReturn
  deriving DecidableEq, Repr

/-- Embeds `MCPClient._calculate_delay`:
`base_delay * backoff_multiplier ** attempt`. -/
def calculate_delay (cfg : RetryConfig) (attempt : Nat) : ℚ :=
  cfg.base_delay * cfg.backoff_multiplier ^ attempt

/-- Embeds the loop `for attempt in range(max_retries)` of
`MCPClient.call`: `attempt` is the current loop index and `fuel` the
number of remaining iterations; `outcomes n` is how the `n`-th
`requests.post` fares.  A timeout or connection error stores the
exception and, when `attempt < max_retries - 1`, sleeps the backoff
delay before the next attempt; an HTTP error returns the -32000 error
immediately; when the loop ends the -32001 max-retries error with data
E009 / CONNECTION_ERROR is returned. -/
def callAux (cfg : RetryConfig) (outcomes : Nat → AttemptOutcome) :
    Nat → Nat → CallTrace
  | _, 0 =>
    { attempts := 0, sleeps := [],
      ret := .errorReturn (-32001)
        (some { error_code := ("E009"),
                error_description := ("CONNECTION_ERROR") }) }
  | attempt, fuel + 1 =>
    match outcomes attempt with
    | .success => { attempts := 1, sleeps := [], ret := .success }
    | .httpError =>
      { attempts := 1, sleeps := [], ret := .errorReturn (-32000) none }
    | .timeout =>
      let rest := callAux cfg outcomes (attempt + 1) fuel
      { attempts := rest.attempts + 1,
        sleeps := (if attempt < cfg.max_retries - 1
          then [calculate_delay cfg attempt] else []) ++ rest.sleeps,
        ret := rest.ret }
    | .connectionError =>
      let rest := callAux cfg outcomes (attempt + 1) fuel
      { attempts := rest.attempts + 1,
        sleeps := (if attempt < cfg.max_retries - 1
          then [calculate_delay cfg attempt] else []) ++ rest.sleeps,
        ret := rest.ret }

/-- Embeds `MCPClient.call` of `SHARED/league_sdk/http_client.py`,
abstracted over the outcome of each HTTP attempt. -/
def MCPClient.call (cfg : RetryConfig) (outcomes : Nat → AttemptOutcome) :
    CallTrace :=
  callAux cfg outcomes 0 cfg.max_retries

/-- C2 counterexample: with `max_retries=3, base_delay=2, multiplier=2`
and every attempt timing out, the structured error returned after
exhaustion carries the machine-readable code E009 (CONNECTION_ERROR),
not E001 as the claim states. -/
theorem c2_timeout_error_code_counterexample :
    (MCPClient.call {} (fun _ => .timeout)).ret
        = .errorReturn (-32001)
            (some { error_code := ("E009"),
                    error_description := ("CONNECTION_ERROR") })
      ∧ (("E009") : String) ≠ ("E001") := by
  constructor
  · rfl
  · decide

/-- C2 (amended): a Transport Client configured with
`max_retries=3, base_delay=2, multiplier=2` whose every attempt times out
performs exactly 3 attempts, sleeping 2 seconds after the first and 4
seconds after the second attempt and not sleeping after the third, then
returns the structured JSON-RPC -32001 error whose machine-readable code
is E009 (CONNECTION_ERROR). -/
theorem c2_call_all_timeouts_behaviour :
    MCPClient.call {} (fun _ => .timeout)
      = { attempts := 3, sleeps := [2, 4],
          ret := .errorReturn (-32001)
            (some { error_code := ("E009"),
                    error_description := ("CONNECTION_ERROR") }) } := by
  show callAux _ _ 0 3 = _
  simp only [callAux, calculate_delay]
  norm_num

/-- C3: an HTTP 4xx/5xx outcome is never retried — if the first `k`
attempts are timeouts or connection errors and attempt `k` hits an HTTP
error inside the loop bound, `call` stops after exactly `k + 1` attempts
and returns the structured -32000 error immediately; conversely whenever
a further attempt follows attempt `j`, attempt `j` was a timeout or a
connection error (those are the only outcomes that trigger a retry). -/
theorem c3_http_error_never_retried (cfg : RetryConfig)
    (outcomes : Nat → AttemptOutcome) :
    (∀ k, (∀ j, j < k → outcomes j = .timeout ∨ outcomes j = .connectionError) →
      outcomes k = .httpError → k < cfg.max_retries →
      (MCPClient.call cfg outcomes).attempts = k + 1
        ∧ (MCPClient.call cfg outcomes).ret = .errorReturn (-32000) none)
    ∧ (∀ j, j + 1 < (MCPClient.call cfg outcomes).attempts →
        outcomes j = .timeout ∨ outcomes j = .connectionError) := by
  have haux : ∀ fuel attempt k,
      (∀ j, attempt ≤ j → j < attempt + k →
        outcomes j = .timeout ∨ outcomes j = .connectionError) →
      outcomes (attempt + k) = .httpError → k < fuel →
      (callAux cfg outcomes attempt fuel).attempts = k + 1
        ∧ (callAux cfg outcomes attempt fuel).ret
            = .errorReturn (-32000) none := by
    intro fuel
    induction fuel with
    | zero => intro attempt k _ _ hk; omega
    | succ f ih =>
      intro attempt k hretry hk hlt
      cases k with
      | zero =>
        rw [Nat.add_zero] at hk
        simp [callAux, hk]
      | succ k' =>
        have hfirst : outcomes attempt = .timeout
            ∨ outcomes attempt = .connectionError := by
          apply hretry attempt (Nat.le_refl attempt)
          omega
        have hrec := ih (attempt + 1) k'
          (fun j hj1 hj2 => hretry j (by omega) (by omega))
          (by rw [show attempt + 1 + k' = attempt + (k' + 1) from by omega]; exact hk)
          (by omega)
        have h1 := hrec.1
        have h2 := hrec.2
        rcases hfirst with h | h <;>
          · simp only [callAux, h]
            exact ⟨by omega, h2⟩
  have hretr : ∀ fuel attempt j,
      j + 1 < (callAux cfg outcomes attempt fuel).attempts →
      outcomes (attempt + j) = .timeout
        ∨ outcomes (attempt + j) = .connectionError := by
    intro fuel
    induction fuel with
    | zero =>
      intro attempt j hj
      simp only [callAux] at hj
      omega
    | succ f ih =>
      intro attempt j hj
      cases houtcome : outcomes attempt with
      | success =>
        simp only [callAux, houtcome] at hj
        omega
      | httpError =>
        simp only [callAux, houtcome] at hj
        omega
      | timeout =>
        cases j with
        | zero => rw [Nat.add_zero]; exact Or.inl houtcome
        | succ j' =>
          simp only [callAux, houtcome] at hj
          have := ih (attempt + 1) j' (by omega)
          rw [show attempt + (j' + 1) = attempt + 1 + j' from by omega]
          exact this
      | connectionError =>
        cases j with
        | zero => rw [Nat.add_zero]; exact Or.inr houtcome
        | succ j' =>
          simp only [callAux, houtcome] at hj
          have := ih (attempt + 1) j' (by omega)
          rw [show attempt + (j' + 1) = attempt + 1 + j' from by omega]
          exact this
  constructor
  · intro k hretry hk hlt
    exact haux cfg.max_retries 0 k (fun j _ hj => hretry j (by omega))
      (by simpa using hk) hlt
  · intro j hj
    simpa using hretr cfg.max_retries 0 j hj

/-- Attempt outcomes exercising the C3 theorem: the first attempt times
out, every later attempt hits an HTTP error. -/
def c3OutcomesW : Nat → AttemptOutcome :=
  fun j => if j = 0 then .timeout else .httpError

/-- C3 witness: with a timeout followed by an HTTP error under the
default configuration, `call` makes exactly 2 attempts and returns the
-32000 error. -/
theorem c3_http_error_never_retried_witness :
    (MCPClient.call {} c3OutcomesW).attempts = 1 + 1
      ∧ (MCPClient.call {} c3OutcomesW).ret
          = .errorReturn (-32000) none :=
  (c3_http_error_never_retried {} c3OutcomesW).1 1
    (fun j hj => by
      have hj0 : j = 0 := by omega
      rw [hj0]
      exact Or.inl rfl)
    (by rfl) (by decide)

/-- Embeds the dataclass `PlayerStanding` of
`agents/league_manager/state.py`, all counters defaulting to zero. -/
structure PlayerStanding where
  player_id : String
  display_name : String
  played : Nat := 0
  wins : Nat := 0
  draws : Nat := 0
  losses : Nat := 0
  points : Nat := 0
  deriving Repr, DecidableEq

/-- Embeds the dataclass `RegisteredReferee` of
`agents/league_manager/state.py`. -/
structure RegisteredReferee where
  referee_id : String
  display_name : String
  endpoint : String
  auth_token : String
  version : String := "1.0.0"
  game_types : List String := ["even_odd"]
  max_concurrent_matches : Nat := 2
  active_matches : Nat := 0
  deriving Repr, DecidableEq

/-- Embeds the dataclass `RegisteredPlayer` of
`agents/league_manager/state.py`. -/
structure RegisteredPlayer where
  player_id : String
  display_name : String
  endpoint : String
  auth_token : String
  version : String := "1.0.0"
  game_types : List String := ["even_odd"]
  deriving Repr, DecidableEq

/-- Embeds the state carried by the class `LeagueState` of
`agents/league_manager/state.py`.  Python dicts keyed by id are embedded
as insertion-ordered association lists (`referees`, `players`,
`auth_tokens`) or as lookup functions (`standings`).  Disk persistence
(`_save_standings`, `save_match_result`) is embedded as a write log:
`standings_saves` counts standings writes and `saved_matches` records the
match ids written by `save_match_result`. -/
structure LeagueState where
  league_id : String
  referees : List (String × RegisteredReferee)
  players : List (String × RegisteredPlayer)
  auth_tokens : List (String × String)
  standings : String → Option PlayerStanding
  schedule : List MatchRec
  current_round : Nat
  rounds_completed : Nat
  next_referee_num : Nat
  next_player_num : Nat
  standings_saves : Nat
  saved_matches : List String

/-- Embeds `LeagueState.__init__`: counters start at 1 and every
collection is empty. -/
def LeagueState.init (league_id : String) : LeagueState :=
  { league_id := league_id, referees := [], players := [], auth_tokens := [],
    standings := fun _ => none, schedule := [], current_round := 0,
    rounds_completed := 0, next_referee_num := 1, next_player_num := 1,
    standings_saves := 0, saved_matches := [] }

/-- Embeds assignment into a Python dict: an existing key is overwritten
in place, a new key is appended, preserving insertion order. -/
def dictInsert {β : Type} (l : List (String × β)) (k : String) (v : β) :
    List (String × β) :=
  if l.any (fun p => decide (p.1 = k)) then
    l.map (fun p => if p.1 = k then (k, v) else p)
  else
    l ++ [(k, v)]

/-- Embeds the Python idiom `game_types or ["even_odd"]`: `None` and the
empty list are both replaced by the default. -/
def gameTypesOrDefault (gts : Option (List String)) : List String :=
  match gts with
  | none => ["even_odd"]
  | some [] => ["even_odd"]
  | some l => l

/-- Decimal digit as a character, as Python's `format` renders it. -/
def decDigitChar (d : Nat) : Char := Char.ofNat (48 + d)

/-- Decimal digit characters of `n`, most significant first, computed
with structural fuel (`fuel > n` suffices). -/
def decReprAux : Nat → Nat → List Char
  | 0, _ => []
  | fuel + 1, n =>
    if n < 10 then [decDigitChar n]
    else decReprAux fuel (n / 10) ++ [decDigitChar (n % 10)]

/-- Decimal rendering of `n`, as Python's `str`/`format` produce it. -/
def decRepr (n : Nat) : List Char := decReprAux (n + 1) n

/-- Embeds the `:02d` format spec: left-pad the (always nonempty) decimal
rendering with a zero up to width 2. -/
def zfill2 (s : List Char) : List Char :=
  if s.length < 2 then ('0') :: s else s

/-- Embeds the f-string `f"REF{num:02d}"` of
`LeagueState.register_referee`. -/
def refereeIdString (n : Nat) : String :=
  String.mk (('R') :: ('E') :: ('F') :: zfill2 (decRepr n))

/-- Embeds the f-string `f"P{num:02d}"` of `LeagueState.register_player`. -/
def playerIdString (n : Nat) : String :=
  String.mk (('P') :: zfill2 (decRepr n))

/-- Embeds `LeagueState.register_referee`.  The auth token produced by
`generate_auth_token` (a call into `secrets`) is passed in as the
`auth_token` argument. -/
def LeagueState.register_referee (st : LeagueState)
    (display_name endpoint version : String)
    (game_types : Option (List String)) (max_concurrent_matches : Nat)
    (auth_token : String) : RegisteredReferee × LeagueState :=
  let referee_id := refereeIdString st.next_referee_num
  let referee : RegisteredReferee :=
    { referee_id := referee_id, display_name := display_name,
      endpoint := endpoint, auth_token := auth_token, version := version,
      game_types := gameTypesOrDefault game_types,
      max_concurrent_matches := max_concurrent_matches }
  (referee,
   { st with
      next_referee_num := st.next_referee_num + 1,
      referees := dictInsert st.referees referee_id referee,
      auth_tokens := dictInsert st.auth_tokens auth_token referee_id })

/-- Embeds `LeagueState.register_player`: allocates the next player id,
stores the player and token, and initialises a standings row with the
dataclass defaults (all counters zero).  The auth token is passed in as
for `register_referee`. -/
def LeagueState.register_player (st : LeagueState)
    (display_name endpoint version : String)
    (game_types : Option (List String))
    (auth_token : String) : RegisteredPlayer × LeagueState :=
  let player_id := playerIdString st.next_player_num
  let player : RegisteredPlayer :=
    { player_id := player_id, display_name := display_name,
      endpoint := endpoint, auth_token := auth_token, version := version,
      game_types := gameTypesOrDefault game_types }
  (player,
   { st with
      next_player_num := st.next_player_num + 1,
      players := dictInsert st.players player_id player,
      auth_tokens := dictInsert st.auth_tokens auth_token player_id,
      standings := fun k =>
        if k = player_id then
          some { player_id := player_id, display_name := display_name }
        else st.standings k })

/-- Mutation of the standing stored under one key, leaving every other
key unchanged: embeds a `+=` on a field of a fetched `PlayerStanding`
object. -/
def adjustStanding (st : String → Option PlayerStanding) (pid : String)
    (f : PlayerStanding → PlayerStanding) : String → Option PlayerStanding :=
  fun k => if k = pid then (st k).map f else st k

/-- Embeds `LeagueState.update_standings_for_match`: if either standing
is missing the state is returned unchanged (early return before any
mutation); otherwise both `played` counters are bumped, then the draw or
decisive branch updates `draws`/`wins`/`losses`/`points` in source order,
and `_save_standings` persists (modelled by bumping `standings_saves`). -/
def LeagueState.update_standings_for_match (st : LeagueState)
    (player_a_id player_b_id : String) (winner : Option String) : LeagueState :=
  match st.standings player_a_id, st.standings player_b_id with
  | some _, some _ =>
    let s1 := adjustStanding st.standings player_a_id
      (fun s => { s with played := s.played + 1 })
    let s2 := adjustStanding s1 player_b_id
      (fun s => { s with played := s.played + 1 })
    let s6 :=
      match winner with
      | none =>
        let s3 := adjustStanding s2 player_a_id
          (fun s => { s with draws := s.draws + 1 })
        let s4 := adjustStanding s3 player_b_id
          (fun s => { s with draws := s.draws + 1 })
        let s5 := adjustStanding s4 player_a_id
          (fun s => { s with points := s.points + 1 })
        adjustStanding s5 player_b_id
          (fun s => { s with points := s.points + 1 })
      | some w =>
        if w = player_a_id then
          let s3 := adjustStanding s2 player_a_id
            (fun s => { s with wins := s.wins + 1 })
          let s4 := adjustStanding s3 player_a_id
            (fun s => { s with points := s.points + 3 })
          adjustStanding s4 player_b_id
            (fun s => { s with losses := s.losses + 1 })
        else
          let s3 := adjustStanding s2 player_b_id
            (fun s => { s with wins := s.wins + 1 })
          let s4 := adjustStanding s3 player_b_id
            (fun s => { s with points := s.points + 3 })
          adjustStanding s4 player_a_id
            (fun s => { s with losses := s.losses + 1 })
    { st with standings := s6, standings_saves := st.standings_saves + 1 }
  | _, _ => st

/-- C4: for a completed match between registered players `a ≠ b`, a draw
increments both players' `draws` and `points` by exactly 1; a win for `a`
increments `a`'s `wins` by 1 and `points` by 3 and `b`'s `losses` by 1
with `b`'s points unchanged (symmetrically for a win for `b`); in every
case both players' `played` counters increment by 1. -/
theorem c4_update_standings_for_match_correct (st : LeagueState)
    (a b : String) (hab : a ≠ b) (sa sb : PlayerStanding)
    (ha : st.standings a = some sa) (hb : st.standings b = some sb) :
    ((st.update_standings_for_match a b none).standings a
        = some { sa with played := sa.played + 1, draws := sa.draws + 1,
                         points := sa.points + 1 }
      ∧ (st.update_standings_for_match a b none).standings b
        = some { sb with played := sb.played + 1, draws := sb.draws + 1,
                         points := sb.points + 1 })
    ∧ ((st.update_standings_for_match a b (some a)).standings a
        = some { sa with played := sa.played + 1, wins := sa.wins + 1,
                         points := sa.points + 3 }
      ∧ (st.update_standings_for_match a b (some a)).standings b
        = some { sb with played := sb.played + 1, losses := sb.losses + 1 })
    ∧ ((st.update_standings_for_match a b (some b)).standings b
        = some { sb with played := sb.played + 1, wins := sb.wins + 1,
                         points := sb.points + 3 }
      ∧ (st.update_standings_for_match a b (some b)).standings a
        = some { sa with played := sa.played + 1, losses := sa.losses + 1 }) := by
  have hba : ¬(b = a) := fun h => hab h.symm
  refine ⟨⟨?_, ?_⟩, ⟨?_, ?_⟩, ⟨?_, ?_⟩⟩ <;>
    simp [LeagueState.update_standings_for_match, adjustStanding,
      ha, hb, hab, hba]

/-- League state with the two players Alice (P01) and Bob (P02)
registered, used to exercise the standings theorems. -/
def twoPlayerStateW : LeagueState :=
  (((LeagueState.init ("L1")).register_player ("Alice") ("e1") ("1.0.0")
      none ("t1")).2.register_player ("Bob") ("e2") ("1.0.0") none ("t2")).2

/-- C4 witness: in the two-player state, recording a win for P01 over
P02 leaves P01 with played 1, wins 1 and points 3. -/
theorem c4_update_standings_for_match_correct_witness :
    (twoPlayerStateW.update_standings_for_match ("P01") ("P02")
        (some ("P01"))).standings ("P01")
      = some { player_id := ("P01"), display_name := ("Alice"),
               played := 1, wins := 1, draws := 0, losses := 0,
               points := 3 } :=
  ((c4_update_standings_for_match_correct twoPlayerStateW ("P01") ("P02")
      (by decide)
      { player_id := ("P01"), display_name := ("Alice") }
      { player_id := ("P02"), display_name := ("Bob") }
      (by decide) (by decide)).2.1).1

/-- Embeds the parameters `handle_report_match_result` reads from the
incoming MCP request: `match_id`, the `result` dict and
`conversation_id` (the timestamp fields are wall-clock data and are not
modelled). -/
structure ReportParams where
  match_id : String
  result : ResultPayload
  round_id : Nat
  conversation_id : String
  deriving Repr, DecidableEq

/-- Embeds the `result` member of the MATCH_RESULT_ACK response dict
built by `handle_report_match_result` (the `timestamp` field is
wall-clock data and is not modelled; `id` echoes the JSON-RPC request
id). -/
structure MatchResultAck where
  message_type : String
  sender : String
  conversation_id : String
  match_id : String
  status : String
  id : Nat
  deriving Repr, DecidableEq

/-- Embeds the `for match in self.state.schedule: ... break` loop of
`handle_report_match_result`: the first match whose id equals the
reported one is marked COMPLETED and given the reported winner and
result; the loop stops there.  Returns the new schedule and the updated
match if one was found. -/
def markCompleted (mid : String) (res : ResultPayload) :
    List MatchRec → List MatchRec × Option MatchRec
  | [] => ([], none)
  | m :: rest =>
    if m.match_id = mid then
      (({ m with
          status := ("COMPLETED")
          winner := res.winner
          result := some res }) :: rest,
       some ({ m with
          status := ("COMPLETED")
          winner := res.winner
          result := some res }))
    else
      let pr := markCompleted mid res rest
      (m :: pr.1, pr.2)

/-- Embeds `LeagueHandlers.handle_report_match_result` of
`agents/league_manager/handlers.py`: if the reported match id occurs in
the schedule, the first such match is completed, the standings are
updated for its two players and the result is persisted
(`save_match_result`, logged in `saved_matches`); in every case a
MATCH_RESULT_ACK with status RECORDED is returned. -/
def LeagueState.handle_report_match_result (st : LeagueState)
    (p : ReportParams) (request_id : Nat) : LeagueState × MatchResultAck :=
  let pr := markCompleted p.match_id p.result st.schedule
  let st1 := { st with schedule := pr.1 }
  let st2 :=
    match pr.2 with
    | none => st1
    | some m =>
      let st3 := st1.update_standings_for_match m.player_a_id
        m.player_b_id p.result.winner
      { st3 with saved_matches := st3.saved_matches ++ [p.match_id] }
  (st2,
   { message_type := ("MATCH_RESULT_ACK"), sender := ("league_manager"),
     conversation_id := p.conversation_id, match_id := p.match_id,
     status := ("RECORDED"), id := request_id })

/-- States of the league reachable from a fresh `LeagueState` by any
sequence of the embedded mutating operations. -/
inductive Reachable : LeagueState → Prop where
  | init (league_id : String) : Reachable (LeagueState.init league_id)
  | register_referee {st : LeagueState} (h : Reachable st)
      (dn ep v : String) (gts : Option (List String)) (mcm : Nat)
      (tok : String) :
      Reachable (st.register_referee dn ep v gts mcm tok).2
  | register_player {st : LeagueState} (h : Reachable st)
      (dn ep v : String) (gts : Option (List String)) (tok : String) :
      Reachable (st.register_player dn ep v gts tok).2
  | update_standings {st : LeagueState} (h : Reachable st)
      (a b : String) (w : Option String) :
      Reachable (st.update_standings_for_match a b w)
  | report_result {st : LeagueState} (h : Reachable st)
      (p : ReportParams) (rid : Nat) :
      Reachable (st.handle_report_match_result p rid).1

theorem update_standings_preserves_inv (st : LeagueState) (a b : String)
    (w : Option String)
    (hinv : ∀ pid s, st.standings pid = some s →
      s.played = s.wins + s.draws + s.losses) :
    ∀ pid s,
      (st.update_standings_for_match a b w).standings pid = some s →
      s.played = s.wins + s.draws + s.losses := by
  intro pid s hs
  unfold LeagueState.update_standings_for_match at hs
  cases hA : st.standings a with
  | none =>
    simp only [hA] at hs
    exact hinv pid s hs
  | some sa =>
    cases hB : st.standings b with
    | none =>
      simp only [hA, hB] at hs
      exact hinv pid s hs
    | some sb =>
      have ia := hinv a sa hA
      have ib := hinv b sb hB
      rcases w with _ | w
      · simp only [hA, hB, adjustStanding] at hs
        by_cases hpa : pid = a
        · by_cases hpb : pid = b
          · have hab : a = b := hpa.symm.trans hpb
            rw [hpa, ← hab] at hs
            rw [← hab] at hB
            rw [hA] at hB
            injection hB with hsab
            simp [hA, ← hsab] at hs
            subst hs
            simp
            omega
          · have hab : ¬(a = b) := fun h => hpb (hpa.trans h)
            rw [hpa] at hs
            simp [hA, hab] at hs
            subst hs
            simp
            omega
        · by_cases hpb : pid = b
          · have hba : ¬(b = a) := fun h => hpa (hpb.trans h)
            rw [hpb] at hs
            simp [hB, hba] at hs
            subst hs
            simp
            omega
          · simp only [hpa, hpb, if_false] at hs
            exact hinv pid s hs
      · by_cases hwa : w = a
        · simp only [hA, hB, adjustStanding, hwa, if_true, eq_self_iff_true,
            ite_true] at hs
          by_cases hpa : pid = a
          · by_cases hpb : pid = b
            · have hab : a = b := hpa.symm.trans hpb
              rw [hpa, ← hab] at hs
              rw [← hab] at hB
              rw [hA] at hB
              injection hB with hsab
              simp [hA, ← hsab] at hs
              subst hs
              simp
              omega
            · have hab : ¬(a = b) := fun h => hpb (hpa.trans h)
              rw [hpa] at hs
              simp [hA, hab] at hs
              subst hs
              simp
              omega
          · by_cases hpb : pid = b
            · have hba : ¬(b = a) := fun h => hpa (hpb.trans h)
              rw [hpb] at hs
              simp [hB, hba] at hs
              subst hs
              simp
              omega
            · simp only [hpa, hpb, if_false] at hs
              exact hinv pid s hs
        · simp only [hA, hB, adjustStanding, hwa, if_false, ite_false] at hs
          by_cases hpa : pid = a
          · by_cases hpb : pid = b
            · have hab : a = b := hpa.symm.trans hpb
              rw [hpa, ← hab] at hs
              rw [← hab] at hB
              rw [hA] at hB
              injection hB with hsab
              simp [hA, ← hsab] at hs
              subst hs
              simp
              omega
            · have hab : ¬(a = b) := fun h => hpb (hpa.trans h)
              rw [hpa] at hs
              simp [hA, hab] at hs
              subst hs
              simp
              omega
          · by_cases hpb : pid = b
            · have hba : ¬(b = a) := fun h => hpa (hpb.trans h)
              rw [hpb] at hs
              simp [hB, hba] at hs
              subst hs
              simp
              omega
            · simp only [hpa, hpb, if_false] at hs
              exact hinv pid s hs

/-- C5: the invariant `played = wins + draws + losses` holds for every
player's standing in every reachable league state: `register_player`
establishes it with all counters zero and every standings update
preserves it for both participants (and everyone else). -/
theorem c5_played_invariant {st : LeagueState} (h : Reachable st) :
    ∀ pid s, st.standings pid = some s →
      s.played = s.wins + s.draws + s.losses := by
  induction h with
  | init lid =>
    intro pid s hs
    simp [LeagueState.init] at hs
  | register_referee h dn ep v gts mcm tok ih =>
    intro pid s hs
    exact ih pid s hs
  | register_player h dn ep v gts tok ih =>
    intro pid s hs
    simp only [LeagueState.register_player] at hs
    split_ifs at hs with hk
    · injection hs with hrec
      subst hrec
      rfl
    · exact ih pid s hs
  | update_standings h a b w ih =>
    exact update_standings_preserves_inv _ a b w ih
  | @report_result st' h p rid ih =>
    intro pid s hs
    simp only [LeagueState.handle_report_match_result] at hs
    cases hm : (markCompleted p.match_id p.result st'.schedule).2 with
    | none =>
      rw [hm] at hs
      exact ih pid s hs
    | some m =>
      simp only [hm] at hs
      exact update_standings_preserves_inv
        { st' with schedule := (markCompleted p.match_id p.result st'.schedule).1 }
        m.player_a_id m.player_b_id p.result.winner
        (fun pid2 s2 hss => ih pid2 s2 hss) pid s hs

/-- Standing row of P01 after registering Alice and Bob and recording a
draw between them. -/
def c5RowW : PlayerStanding :=
  { player_id := ("P01"), display_name := ("Alice"), played := 1, wins := 0,
    draws := 1, losses := 0, points := 1 }

/-- C5 witness: the invariant instantiated in the reachable state where
Alice and Bob drew their match. -/
theorem c5_played_invariant_witness :
    c5RowW.played = c5RowW.wins + c5RowW.draws + c5RowW.losses :=
  c5_played_invariant
    (Reachable.update_standings
      (Reachable.register_player
        (Reachable.register_player (Reachable.init ("L1")) ("Alice") ("e1")
          ("1.0.0") none ("t1"))
        ("Bob") ("e2") ("1.0.0") none ("t2"))
      ("P01") ("P02") none)
    ("P01") c5RowW (by decide)

theorem markCompleted_not_found (mid : String) (res : ResultPayload)
    (l : List MatchRec) (h : ∀ m ∈ l, m.match_id ≠ mid) :
    markCompleted mid res l = (l, none) := by
  induction l with
  | nil => rfl
  | cons m rest ih =>
    rw [markCompleted, if_neg (h m (List.mem_cons_self m rest))]
    rw [ih (fun m' hm' => h m' (List.mem_cons_of_mem m hm'))]

/-- C10: when `handle_report_match_result` receives a match id that does
not occur in the schedule, it still returns a MATCH_RESULT_ACK with
status RECORDED, and the league state is completely unchanged: no
standings row, no match, and no persistence log entry is touched. -/
theorem c10_unknown_match_id_frame (st : LeagueState) (p : ReportParams)
    (rid : Nat) (h : ∀ m ∈ st.schedule, m.match_id ≠ p.match_id) :
    st.handle_report_match_result p rid
      = (st,
         { message_type := ("MATCH_RESULT_ACK"), sender := ("league_manager"),
           conversation_id := p.conversation_id, match_id := p.match_id,
           status := ("RECORDED"), id := rid }) := by
  simp only [LeagueState.handle_report_match_result,
    markCompleted_not_found p.match_id p.result st.schedule h]

/-- Report parameters naming a match id that occurs in no schedule. -/
def c10ParamsW : ReportParams :=
  { match_id := ("M999"), result := { winner := none }, round_id := 1,
    conversation_id := ("c1") }

/-- C10 witness: reporting an unknown match against the fresh league
state leaves the state untouched and still acknowledges RECORDED. -/
theorem c10_unknown_match_id_frame_witness :
    (LeagueState.init ("L1")).handle_report_match_result c10ParamsW 7
      = (LeagueState.init ("L1"),
         { message_type := ("MATCH_RESULT_ACK"), sender := ("league_manager"),
           conversation_id := c10ParamsW.conversation_id,
           match_id := c10ParamsW.match_id,
           status := ("RECORDED"), id := 7 }) :=
  c10_unknown_match_id_frame (LeagueState.init ("L1")) c10ParamsW 7
    (by intro m hm; simp [LeagueState.init] at hm)

/-- Numeric value of a decimal digit character. -/
def charToDigit (c : Char) : Nat := c.toNat - 48

/-- Parse a big-endian decimal digit string. -/
def parseDec (l : List Char) : Nat :=
  l.foldl (fun acc c => acc * 10 + charToDigit c) 0

theorem charToDigit_decDigitChar (d : Nat) (h : d < 10) :
    charToDigit (decDigitChar d) = d := by
  revert d
  decide

theorem foldl_decReprAux (fuel : Nat) :
    ∀ n acc, n < fuel →
      List.foldl (fun acc c => acc * 10 + charToDigit c) acc (decReprAux fuel n)
        = acc * 10 ^ (decReprAux fuel n).length + n := by
  induction fuel with
  | zero => intro n acc h; omega
  | succ f ih =>
    intro n acc h
    rw [decReprAux]
    by_cases hn : n < 10
    · rw [if_pos hn]
      simp [List.foldl, charToDigit_decDigitChar n hn]
    · rw [if_neg hn]
      have hdiv : n / 10 < f := by omega
      rw [List.foldl_append, ih (n / 10) acc hdiv]
      have hmod : n / 10 * 10 + n % 10 = n := by omega
      simp only [List.foldl, List.length_append, List.length_singleton]
      rw [charToDigit_decDigitChar _ (by omega)]
      calc ((acc * 10 ^ (decReprAux f (n / 10)).length + n / 10) * 10 + n % 10)
          = acc * (10 ^ (decReprAux f (n / 10)).length * 10)
            + (n / 10 * 10 + n % 10) := by ring
        _ = acc * 10 ^ ((decReprAux f (n / 10)).length + 1) + n := by
            rw [hmod, pow_succ]

theorem parseDec_decRepr (n : Nat) : parseDec (decRepr n) = n := by
  unfold parseDec decRepr
  rw [foldl_decReprAux (n + 1) n 0 (by omega)]
  simp

theorem parseDec_zfill2 (s : List Char) :
    parseDec (zfill2 s) = parseDec s := by
  unfold zfill2
  split_ifs
  · show List.foldl _ (0 * 10 + charToDigit ('0')) s = List.foldl _ 0 s
    have h0 : (0 * 10 + charToDigit ('0')) = 0 := by decide
    rw [h0]
  · rfl

theorem playerIdString_inj {m n : Nat}
    (h : playerIdString m = playerIdString n) : m = n := by
  unfold playerIdString at h
  injection h with hdata
  injection hdata with _ htail
  have hp := congrArg parseDec htail
  rwa [parseDec_zfill2, parseDec_zfill2, parseDec_decRepr,
    parseDec_decRepr] at hp

theorem refereeIdString_inj {m n : Nat}
    (h : refereeIdString m = refereeIdString n) : m = n := by
  unfold refereeIdString at h
  injection h with hdata
  injection hdata with _ h1
  injection h1 with _ h2
  injection h2 with _ htail
  have hp := congrArg parseDec htail
  rwa [parseDec_zfill2, parseDec_zfill2, parseDec_decRepr,
    parseDec_decRepr] at hp

theorem mem_dictInsert {β : Type} {l : List (String × β)} {k : String}
    {v : β} {p : String × β} (hp : p ∈ dictInsert l k v) :
    p.1 = k ∨ p ∈ l := by
  unfold dictInsert at hp
  split_ifs at hp
  · rcases List.mem_map.mp hp with ⟨q, hq, rfl⟩
    by_cases hqk : q.1 = k
    · rw [if_pos hqk]
      exact Or.inl rfl
    · rw [if_neg hqk]
      exact Or.inr hq
  · rcases List.mem_append.mp hp with hmem | hmem
    · exact Or.inr hmem
    · simp only [List.mem_singleton] at hmem
      subst hmem
      exact Or.inl rfl

theorem update_standings_reg_frame (st : LeagueState) (a b : String)
    (w : Option String) :
    (st.update_standings_for_match a b w).players = st.players
    ∧ (st.update_standings_for_match a b w).referees = st.referees
    ∧ (st.update_standings_for_match a b w).next_player_num
        = st.next_player_num
    ∧ (st.update_standings_for_match a b w).next_referee_num
        = st.next_referee_num := by
  unfold LeagueState.update_standings_for_match
  cases st.standings a <;> cases st.standings b <;>
    exact ⟨rfl, rfl, rfl, rfl⟩

theorem handle_report_reg_frame (st : LeagueState) (p : ReportParams)
    (rid : Nat) :
    (st.handle_report_match_result p rid).1.players = st.players
    ∧ (st.handle_report_match_result p rid).1.referees = st.referees
    ∧ (st.handle_report_match_result p rid).1.next_player_num
        = st.next_player_num
    ∧ (st.handle_report_match_result p rid).1.next_referee_num
        = st.next_referee_num := by
  unfold LeagueState.handle_report_match_result
  simp only []
  cases hm : (markCompleted p.match_id p.result st.schedule).2 with
  | none =>
    simp [hm]
  | some m =>
    simp only [hm]
    have hfr := update_standings_reg_frame
      { st with schedule := (markCompleted p.match_id p.result st.schedule).1 }
      m.player_a_id m.player_b_id p.result.winner
    exact ⟨hfr.1, hfr.2.1, hfr.2.2.1, hfr.2.2.2⟩

theorem reachable_registration_wf {st : LeagueState} (h : Reachable st) :
    (∀ p ∈ st.players, ∃ k, k < st.next_player_num ∧ p.1 = playerIdString k)
    ∧ (∀ p ∈ st.referees,
        ∃ k, k < st.next_referee_num ∧ p.1 = refereeIdString k) := by
  induction h with
  | init lid =>
    constructor <;> intro p hp <;> simp [LeagueState.init] at hp
  | register_referee h dn ep v gts mcm tok ih =>
    constructor
    · exact ih.1
    · intro p hp
      rcases mem_dictInsert hp with hk | hmem
      · exact ⟨_, Nat.lt_succ_self _, hk⟩
      · rcases ih.2 p hmem with ⟨k, hlt, hid⟩
        exact ⟨k, Nat.lt_succ_of_lt hlt, hid⟩
  | register_player h dn ep v gts tok ih =>
    constructor
    · intro p hp
      rcases mem_dictInsert hp with hk | hmem
      · exact ⟨_, Nat.lt_succ_self _, hk⟩
      · rcases ih.1 p hmem with ⟨k, hlt, hid⟩
        exact ⟨k, Nat.lt_succ_of_lt hlt, hid⟩
    · exact ih.2
  | @update_standings st' h a b w ih =>
    have hfr := update_standings_reg_frame st' a b w
    rw [hfr.1, hfr.2.1, hfr.2.2.1, hfr.2.2.2]
    exact ih
  | @report_result st' h p rid ih =>
    have hfr := handle_report_reg_frame st' p rid
    rw [hfr.1, hfr.2.1, hfr.2.2.1, hfr.2.2.2]
    exact ih

/-- C7: registration never collides identifiers and is not idempotent:
in every reachable state a `register_referee` or `register_player` call
allocates an id distinct from all previously stored ids of that role,
`register_player` initialises a standings row with all counters zero for
the new id, and a second identical call returns yet another id. -/
theorem c7_registration_allocates_fresh_ids {st : LeagueState}
    (h : Reachable st) (dn ep v : String) (gts : Option (List String))
    (mcm : Nat) (tok tok2 : String) :
    (∀ q ∈ st.referees,
      q.1 ≠ (st.register_referee dn ep v gts mcm tok).1.referee_id)
    ∧ (∀ q ∈ st.players,
      q.1 ≠ (st.register_player dn ep v gts tok).1.player_id)
    ∧ ((st.register_player dn ep v gts tok).2.standings
          (st.register_player dn ep v gts tok).1.player_id
        = some { player_id := (st.register_player dn ep v gts tok).1.player_id
                 display_name := dn
                 played := 0
                 wins := 0
                 draws := 0
                 losses := 0
                 points := 0 })
    ∧ (st.register_referee dn ep v gts mcm tok).1.referee_id
        ≠ ((st.register_referee dn ep v gts mcm tok).2.register_referee
            dn ep v gts mcm tok2).1.referee_id
    ∧ (st.register_player dn ep v gts tok).1.player_id
        ≠ ((st.register_player dn ep v gts tok).2.register_player
            dn ep v gts tok2).1.player_id := by
  have hwf := reachable_registration_wf h
  refine ⟨?_, ?_, ?_, ?_, ?_⟩
  · intro q hq hcontra
    rcases hwf.2 q hq with ⟨k, hlt, hid⟩
    rw [hid] at hcontra
    have := refereeIdString_inj hcontra
    omega
  · intro q hq hcontra
    rcases hwf.1 q hq with ⟨k, hlt, hid⟩
    rw [hid] at hcontra
    have := playerIdString_inj hcontra
    omega
  · simp [LeagueState.register_player]
  · intro hcontra
    have heq := refereeIdString_inj hcontra
    have hnext : (st.register_referee dn ep v gts mcm tok).2.next_referee_num
        = st.next_referee_num + 1 := rfl
    omega
  · intro hcontra
    have heq := playerIdString_inj hcontra
    have hnext : (st.register_player dn ep v gts tok).2.next_player_num
        = st.next_player_num + 1 := rfl
    omega

/-- C7 witness: registering Alice into the fresh league initialises a
zeroed standings row under the freshly allocated id. -/
theorem c7_registration_allocates_fresh_ids_witness :
    ((LeagueState.init ("L1")).register_player ("Alice") ("e1") ("1.0.0")
        none ("t1")).2.standings
        ((LeagueState.init ("L1")).register_player ("Alice") ("e1") ("1.0.0")
            none ("t1")).1.player_id
      = some { player_id := ((LeagueState.init ("L1")).register_player
                 ("Alice") ("e1") ("1.0.0") none ("t1")).1.player_id
               display_name := ("Alice")
               played := 0
               wins := 0
               draws := 0
               losses := 0
               points := 0 } :=
  (c7_registration_allocates_fresh_ids (Reachable.init ("L1")) ("Alice")
    ("e1") ("1.0.0") none 2 ("t1") ("t2")).2.2.1

/-- Boolean comparison realising the Python sort key
`(-points, -wins, -draws)` of `get_ranked_standings`: ascending order of
the key triple is descending lexicographic order of
`(points, wins, draws)`. -/
def standingSortLE (s t : PlayerStanding) : Bool :=
  decide (t.points < s.points)
    || (decide (s.points = t.points)
        && (decide (t.wins < s.wins)
            || (decide (s.wins = t.wins) && decide (t.draws ≤ s.draws))))

/-- Embeds the dict produced by `PlayerStanding.to_dict(rank)`. -/
structure RankedRow where
  rank : Nat
  player_id : String
  display_name : String
  played : Nat
  wins : Nat
  draws : Nat
  losses : Nat
  points : Nat
  deriving Repr, DecidableEq

/-- Embeds `PlayerStanding.to_dict` of `agents/league_manager/state.py`. -/
def PlayerStanding.to_dict (s : PlayerStanding) (rank : Nat) : RankedRow :=
  { rank := rank, player_id := s.player_id, display_name := s.display_name,
    played := s.played, wins := s.wins, draws := s.draws, losses := s.losses,
    points := s.points }

/-- Embeds `LeagueState.get_ranked_standings`, taking the standings
dict's values in insertion order: a stable sort by the key
`(-points, -wins, -draws)` followed by `to_dict(rank + 1)` over
`enumerate`. -/
def get_ranked_standings (standings_values : List PlayerStanding) :
    List RankedRow :=
  ((standings_values.mergeSort standingSortLE).enum).map
    (fun pr => pr.2.to_dict (pr.1 + 1))

/-- Standing reconstructed from a ranked row (drops the rank). -/
def RankedRow.toStanding (r : RankedRow) : PlayerStanding :=
  { player_id := r.player_id, display_name := r.display_name,
    played := r.played, wins := r.wins, draws := r.draws, losses := r.losses,
    points := r.points }

theorem standingSortLE_trans : ∀ x y z : PlayerStanding,
    standingSortLE x y → standingSortLE y z → standingSortLE x z := by
  intro x y z hxy hyz
  simp only [standingSortLE, Bool.or_eq_true, Bool.and_eq_true,
    decide_eq_true_eq] at hxy hyz ⊢
  omega

theorem standingSortLE_total : ∀ x y : PlayerStanding,
    standingSortLE x y || standingSortLE y x := by
  intro x y
  simp only [standingSortLE, Bool.or_eq_true, Bool.and_eq_true,
    decide_eq_true_eq]
  omega

theorem pairwise_enumFrom_snd {α : Type} {R : α → α → Prop} :
    ∀ (l : List α) (n : Nat), l.Pairwise R →
      (List.enumFrom n l).Pairwise (fun p q => R p.2 q.2) := by
  intro l
  induction l with
  | nil => intro n _; simp [List.enumFrom]
  | cons x xs ih =>
    intro n h
    rw [List.pairwise_cons] at h
    rw [List.enumFrom_cons]
    apply List.Pairwise.cons
    · intro q hq
      have h2 : q.2 ∈ xs := by
        have hmap := List.mem_map_of_mem Prod.snd hq
        rwa [List.enumFrom_map_snd] at hmap
      exact h.1 q.2 h2
    · exact ih (n + 1) h.2

/-- C8: `get_ranked_standings` returns the standings fully ranked by the
key `(-points, -wins, -draws)`: the rank fields are exactly `1..n` in
output order, consecutive rows are ordered by non-increasing points with
ties broken by wins and then draws, and the rows are a permutation of the
input standings. -/
theorem c8_get_ranked_standings_correct (l : List PlayerStanding) :
    ((get_ranked_standings l).map (fun r => r.rank)
        = List.range' 1 l.length)
    ∧ (get_ranked_standings l).Pairwise (fun r1 r2 =>
        r2.points < r1.points ∨ (r1.points = r2.points ∧
          (r2.wins < r1.wins ∨ (r1.wins = r2.wins ∧ r2.draws ≤ r1.draws))))
    ∧ ((get_ranked_standings l).map RankedRow.toStanding).Perm l := by
  refine ⟨?_, ?_, ?_⟩
  · rw [get_ranked_standings, List.map_map]
    have hfun : ((fun r : RankedRow => r.rank)
          ∘ fun pr : Nat × PlayerStanding => pr.2.to_dict (pr.1 + 1))
        = ((fun i => 1 + i) ∘ Prod.fst) := by
      funext pr
      simp [PlayerStanding.to_dict, Function.comp, Nat.add_comm]
    rw [hfun, ← List.map_map]
    show List.map (fun i => 1 + i)
        (List.map Prod.fst (List.enumFrom 0 (l.mergeSort standingSortLE)))
      = List.range' 1 l.length
    rw [List.enumFrom_map_fst, List.map_add_range']
    simp
  · have hsorted := @List.sorted_mergeSort PlayerStanding standingSortLE
      standingSortLE_trans standingSortLE_total l
    have henum := pairwise_enumFrom_snd (l.mergeSort standingSortLE) 0 hsorted
    exact henum.map _ (fun p q hpq => by
      simp only [standingSortLE, Bool.or_eq_true, Bool.and_eq_true,
        decide_eq_true_eq] at hpq
      simp only [PlayerStanding.to_dict]
      omega)
  · rw [get_ranked_standings, List.map_map]
    have hcomp : (RankedRow.toStanding
          ∘ fun pr : Nat × PlayerStanding => pr.2.to_dict (pr.1 + 1))
        = Prod.snd := by
      funext pr
      rfl
    rw [hcomp]
    show (List.map Prod.snd
        (List.enumFrom 0 (l.mergeSort standingSortLE))).Perm l
    rw [List.enumFrom_map_snd]
    exact List.mergeSort_perm l standingSortLE

/-- Embeds `get_parity` of `agents/referee/game_logic.py`.  Python ints
are embedded as `Int`; `%` with a positive modulus agrees between the
two languages. -/
def get_parity (number : Int) : String :=
  if number % 2 == 0 then ("even") else ("odd")

/-- Embeds `determine_winner` of `agents/referee/game_logic.py`:
whichever player's lower-cased choice matches the drawn number's parity
wins; both right or both wrong is a draw.  Returns
`(winner, parity, reason)`. -/
def determine_winner (choice_a choice_b : String) (number : Int) :
    Option String × String × String :=
  let parity := get_parity number
  let a_correct := choice_a.toLower == parity
  let b_correct := choice_b.toLower == parity
  if a_correct && !b_correct then
    (some ("PLAYER_A"), parity,
      ("Player A chose ") ++ choice_a ++ (", number was ")
        ++ toString number ++ (" (") ++ parity ++ (")"))
  else if b_correct && !a_correct then
    (some ("PLAYER_B"), parity,
      ("Player B chose ") ++ choice_b ++ (", number was ")
        ++ toString number ++ (" (") ++ parity ++ (")"))
  else
    (none, parity,
      ("Draw - both chose ")
        ++ (if a_correct then ("correctly") else ("incorrectly"))
        ++ (", number was ") ++ toString number ++ (" (") ++ parity ++ (")"))

/-- Embeds `validate_parity_choice` of `agents/referee/game_logic.py`. -/
def validate_parity_choice (choice : String) : Bool :=
  choice.toLower == ("even") || choice.toLower == ("odd")

/-- Embeds `calculate_score` of `agents/referee/game_logic.py`. -/
def calculate_score (winner : Option String)
    (player_a_id player_b_id : String) : List (String × Nat) :=
  match winner with
  | none => [(player_a_id, 1), (player_b_id, 1)]
  | some w =>
    if w = ("PLAYER_A") then [(player_a_id, 3), (player_b_id, 0)]
    else [(player_a_id, 0), (player_b_id, 3)]

/-- C9: `determine_winner` is antisymmetric under swapping the players:
for all choices and every drawn number, the swapped call yields PLAYER_B
exactly when the original yields PLAYER_A and vice versa, draws are
preserved by the swap, and equal choices always draw. -/
theorem c9_determine_winner_antisymmetric (a b : String) (k : Int) :
    ((determine_winner b a k).1 = some ("PLAYER_B")
        ↔ (determine_winner a b k).1 = some ("PLAYER_A"))
    ∧ ((determine_winner b a k).1 = some ("PLAYER_A")
        ↔ (determine_winner a b k).1 = some ("PLAYER_B"))
    ∧ ((determine_winner b a k).1 = none
        ↔ (determine_winner a b k).1 = none)
    ∧ (determine_winner a a k).1 = none := by
  unfold determine_winner
  cases ha : (a.toLower == get_parity k) <;>
    cases hb : (b.toLower == get_parity k) <;>
      simp [ha, hb]

/-- Match data the referee holds while running a match (the fields of
`RefereeState.create_match` that the join/technical-loss path reads). -/
structure RefMatch where
  match_id : String
  round_id : Nat
  player_a_id : String
  player_b_id : String
  deriving Repr, DecidableEq

/-- Embeds the `game_result` dict built by
`RefereeHandlers._handle_technical_loss`. -/
structure GameResult where
  status : String
  winner_player_id : Option String
  drawn_number : Int
  number_parity : String
  choices : List (String × String)
  reason : String
  deriving Repr, DecidableEq

/-- Embeds the `result` member of the MATCH_RESULT_REPORT message that
`RefereeHandlers._report_match_result` sends to the league manager. -/
structure MatchReportMsg where
  match_id : String
  round_id : Nat
  winner : Option String
  score : List (String × Nat)
  deriving Repr, DecidableEq

/-- Value produced by `RefereeHandlers._handle_technical_loss`: the
handler's return dict together with the report it sends to the league
manager. -/
structure TechLossOutcome where
  match_id : String
  winner : Option String
  game_result : GameResult
  report : MatchReportMsg
  deriving Repr, DecidableEq

/-- Embeds `RefereeHandlers._handle_technical_loss`: the match is
force-completed with status TECHNICAL_LOSS, the non-responding side
scores 0 and the `winner_id` side 3 (`scores = {a: 0, b: 0};
scores[winner_id] = 3`), and the result is reported immediately. -/
def handle_technical_loss (m : RefMatch) (winner_id reason : String) :
    TechLossOutcome :=
  let game_result : GameResult :=
    { status := ("TECHNICAL_LOSS"), winner_player_id := some winner_id,
      drawn_number := 0, number_parity := ("N/A"), choices := [],
      reason := reason }
  let scores := dictInsert
    (dictInsert (dictInsert [] m.player_a_id 0) m.player_b_id 0) winner_id 3
  { match_id := m.match_id, winner := some winner_id,
    game_result := game_result,
    report := { match_id := m.match_id, round_id := m.round_id,
                winner := some winner_id, score := scores } }

/-- Response a player returns to a game invitation: either the transport
client produced an error dict, or a result dict with an `accept` flag
(missing is embedded as `false`, matching Python truthiness) and an
optional echoed `match_id`. -/
inductive InviteResponse where
  | err
  | ok (accept : Bool) (mid : Option String)
  deriving Repr, DecidableEq

/-- Embeds `RefereeHandlers._check_join_ack`: an error response fails;
otherwise the player must accept and echo the exact match id. -/
def check_join_ack (resp : InviteResponse) (match_id : String) : Bool :=
  match resp with
  | .err => false
  | .ok accept mid => accept && (mid == some match_id)

/-- Outcome of the invitation phase of `RefereeHandlers.run_match`. -/
inductive JoinOutcome where
  | proceed
  | techLoss (out : TechLossOutcome)
  deriving Repr, DecidableEq

/-- Trace of the invitation phase of `run_match`: which players were
sent an invitation (each exactly once, in source order) and how the
phase ended. -/
structure JoinPhaseResult where
  invitations_sent : List String
  outcome : JoinOutcome
  deriving Repr, DecidableEq

/-- Embeds steps 1 of `RefereeHandlers.run_match`: one invitation is
sent to each player, then the two acknowledgements are checked in order;
a failed check resolves the match as a technical loss for the opponent
with no further invitation. -/
def run_match_join_phase (m : RefMatch) (respA respB : InviteResponse) :
    JoinPhaseResult :=
  { invitations_sent := [m.player_a_id, m.player_b_id],
    outcome :=
      if !(check_join_ack respA m.match_id) then
        .techLoss (handle_technical_loss m m.player_b_id
          ("Player A failed to join"))
      else if !(check_join_ack respB m.match_id) then
        .techLoss (handle_technical_loss m m.player_a_id
          ("Player B failed to join"))
      else .proceed }

/-- C6: a player that fails to join (transport error, missing or false
accept, or mismatched match id in the acknowledgement) loses
technically: the result has status TECHNICAL_LOSS, the non-responder
scores 0, the opponent scores 3 and is the winner, and each invitation
was sent exactly once (no retry). -/
theorem c6_failed_join_is_technical_loss (m : RefMatch)
    (respA respB : InviteResponse)
    (hab : m.player_a_id ≠ m.player_b_id) :
    (∀ resp : InviteResponse, check_join_ack resp m.match_id = false ↔
      (resp = .err ∨ ∃ acc mid, resp = .ok acc mid
        ∧ (acc = false ∨ mid ≠ some m.match_id)))
    ∧ (check_join_ack respA m.match_id = false →
        ((run_match_join_phase m respA respB).outcome
            = .techLoss (handle_technical_loss m m.player_b_id
                ("Player A failed to join"))
          ∧ (handle_technical_loss m m.player_b_id
              ("Player A failed to join")).game_result.status
              = ("TECHNICAL_LOSS")
          ∧ (handle_technical_loss m m.player_b_id
              ("Player A failed to join")).winner = some m.player_b_id
          ∧ (handle_technical_loss m m.player_b_id
              ("Player A failed to join")).report.score.lookup m.player_a_id
              = some 0
          ∧ (handle_technical_loss m m.player_b_id
              ("Player A failed to join")).report.score.lookup m.player_b_id
              = some 3
          ∧ (run_match_join_phase m respA respB).invitations_sent.count
              m.player_a_id = 1
          ∧ (run_match_join_phase m respA respB).invitations_sent.count
              m.player_b_id = 1))
    ∧ (check_join_ack respA m.match_id = true →
        check_join_ack respB m.match_id = false →
        ((run_match_join_phase m respA respB).outcome
            = .techLoss (handle_technical_loss m m.player_a_id
                ("Player B failed to join"))
          ∧ (handle_technical_loss m m.player_a_id
              ("Player B failed to join")).game_result.status
              = ("TECHNICAL_LOSS")
          ∧ (handle_technical_loss m m.player_a_id
              ("Player B failed to join")).winner = some m.player_a_id
          ∧ (handle_technical_loss m m.player_a_id
              ("Player B failed to join")).report.score.lookup m.player_b_id
              = some 0
          ∧ (handle_technical_loss m m.player_a_id
              ("Player B failed to join")).report.score.lookup m.player_a_id
              = some 3
          ∧ (run_match_join_phase m respA respB).invitations_sent.count
              m.player_a_id = 1
          ∧ (run_match_join_phase m respA respB).invitations_sent.count
              m.player_b_id = 1)) := by
  have hba : ¬(m.player_b_id = m.player_a_id) := fun h => hab h.symm
  have hbeqba : (m.player_b_id == m.player_a_id) = false :=
    beq_eq_false_iff_ne.mpr hba
  have hbeqab : (m.player_a_id == m.player_b_id) = false :=
    beq_eq_false_iff_ne.mpr hab
  refine ⟨?_, ?_, ?_⟩
  · intro resp
    cases resp with
    | err => simp [check_join_ack]
    | ok acc mid =>
      cases acc <;> by_cases hmid : mid = some m.match_id <;>
        simp [check_join_ack, hmid]
  · intro hfail
    refine ⟨?_, rfl, rfl, ?_, ?_, ?_, ?_⟩
    · simp [run_match_join_phase, hfail]
    · simp [handle_technical_loss, dictInsert, List.lookup, hab, hba, hbeqba, hbeqab]
    · simp [handle_technical_loss, dictInsert, List.lookup, hab, hba, hbeqba, hbeqab]
    · simp [run_match_join_phase, List.count_cons, hab, hba]
    · simp [run_match_join_phase, List.count_cons, hab, hba]
  · intro hok hfail
    refine ⟨?_, rfl, rfl, ?_, ?_, ?_, ?_⟩
    · simp [run_match_join_phase, hok, hfail]
    · simp [handle_technical_loss, dictInsert, List.lookup, hab, hba, hbeqba, hbeqab]
    · simp [handle_technical_loss, dictInsert, List.lookup, hab, hba, hbeqba, hbeqab]
    · simp [run_match_join_phase, List.count_cons, hab, hba]
    · simp [run_match_join_phase, List.count_cons, hab, hba]

/-- Referee match between P01 and P02 used to exercise the
technical-loss theorem. -/
def c6MatchW : RefMatch :=
  { match_id := ("M1"), round_id := 1, player_a_id := ("P01"),
    player_b_id := ("P02") }

/-- C6 witness: when P01's invitation transport fails, the match
resolves as a technical loss won by P02 with scores 0 and 3, and each
player was invited exactly once. -/
theorem c6_failed_join_is_technical_loss_witness :
    (run_match_join_phase c6MatchW .err (.ok true (some ("M1")))).outcome
        = .techLoss (handle_technical_loss c6MatchW c6MatchW.player_b_id
            ("Player A failed to join"))
      ∧ (handle_technical_loss c6MatchW c6MatchW.player_b_id
          ("Player A failed to join")).game_result.status
          = ("TECHNICAL_LOSS")
      ∧ (handle_technical_loss c6MatchW c6MatchW.player_b_id
          ("Player A failed to join")).winner = some c6MatchW.player_b_id
      ∧ (handle_technical_loss c6MatchW c6MatchW.player_b_id
          ("Player A failed to join")).report.score.lookup
          c6MatchW.player_a_id = some 0
      ∧ (handle_technical_loss c6MatchW c6MatchW.player_b_id
          ("Player A failed to join")).report.score.lookup
          c6MatchW.player_b_id = some 3
      ∧ (run_match_join_phase c6MatchW .err
          (.ok true (some ("M1")))).invitations_sent.count
          c6MatchW.player_a_id = 1
      ∧ (run_match_join_phase c6MatchW .err
          (.ok true (some ("M1")))).invitations_sent.count
          c6MatchW.player_b_id = 1 :=
  (c6_failed_join_is_technical_loss c6MatchW .err (.ok true (some ("M1")))
    (by decide)).2.1 (by decide)

end League
